import Mathlib

/-!
Shallow embedding of the hash engine in FourthYear_TheoryOfAlgorithms.

Source files modelled here:
* `src/unnamed/part_000`      — loop-based MD5 program (`md5`, `nextblock`, `main`);
  embedded in namespace `Md5P`.
* `src/Program/md5.c`         — unrolled MD5 program (`md5`, `pad`, `main`);
  embedded in namespace `Md5C`.
* `src/Video_Code/Finalizing_Padding/Finalizing_padding.c` — SHA-256-style
  program (`nexthash`, `nextblock`, `main`); embedded in namespace `ShaP`.

Machine integers are modelled as `Nat` with explicit `% 2^32` / `% 2^64`
where C unsigned overflow matters.  A 64-byte block is a `List Nat` of
length 64 (each entry a byte value); the C union's `threetwo` view is the
host little-endian word assembly `wordsOf`, and `sixfour[7] = *nobits`
is the host little-endian byte write `le64`.  File reading is modelled by
an explicit list of remaining input bytes: `fread(M->eight, 1, 64, f)`
returns `min 64 remaining.length` bytes.  Reads of uninitialized memory
(the SHA program's `W[16..63]`, `W[64]`) and out-of-bounds reads
(`K[64]`) are modelled by explicit junk parameters.
-/

set_option maxRecDepth 4000

namespace HashAlg

/-- Little-endian byte write of a `uint64_t` at bytes 56..63
(the `M->sixfour[7] = *nobits` union store, host little-endian). -/
def le64 (x : Nat) : List Nat :=
  (List.range 8).map (fun j => (x >>> (8 * j)) % 256)

/-- Little-endian decode of a byte list (base-256 recomposition). -/
def decodeLE (l : List Nat) : Nat :=
  l.foldr (fun b acc => b + 256 * acc) 0

/-- Big-endian decode of a byte list. -/
def decodeBE (l : List Nat) : Nat :=
  l.foldl (fun acc b => 256 * acc + b) 0

/-- The C union's `threetwo` view of a 64-byte block: word `j` is the
host little-endian assembly of bytes `4j..4j+3`. -/
def wordsOf (blk : List Nat) : Nat → Nat := fun j =>
  blk.getD (4 * j) 0 + 2 ^ 8 * blk.getD (4 * j + 1) 0 +
    2 ^ 16 * blk.getD (4 * j + 2) 0 + 2 ^ 24 * blk.getD (4 * j + 3) 0

/-- 32-bit left rotate, `ROTL(x, n)` from both MD5 sources. -/
def ROTL (x n : Nat) : Nat :=
  ((x <<< n) ||| (x >>> (32 - n))) % 2 ^ 32

/-- The `PADFLAG` enum shared by `src/unnamed/part_000` and
`src/Program/md5.c`: `READ`, `PAD0`, `FINISH`. -/
inductive PadFlag where
  | READ : PadFlag
  | PAD0 : PadFlag
  | FINISH : PadFlag
deriving DecidableEq, Repr

/-- Padder state threaded through successive `nextblock` / `pad` calls:
remaining input bytes, the `nobits` accumulator, and the `PADFLAG`. -/
structure PadSt where
  inp : List Nat
  nobits : Nat
  flag : PadFlag
deriving DecidableEq, Repr

/-- Fuelled driver loop: `while (step(...)) { ... }` of the `main`
functions.  Returns the emitted blocks together with the total number of
`0x80` marker-byte stores the padder performed. -/
def runF {σ : Type} (step : σ → Bool × List Nat × Nat × σ) :
    Nat → σ → List (List Nat) × Nat
  | 0, _ => ([], 0)
  | Nat.succ fuel, s =>
    match step s with
    | (false, _, _, _) => ([], 0)
    | (true, blk, ins, s1) =>
      let p := runF step fuel s1
      (blk :: p.1, ins + p.2)

end HashAlg

namespace Md5P
/-! Embedding of `src/unnamed/part_000`. -/

open HashAlg

/-- Register-role table `AA` (first macro argument per round). -/
def AA : List Nat :=
  [0, 3, 2, 1, 0, 3, 2, 1, 0, 3, 2, 1, 0, 3, 2, 1,
   0, 3, 2, 1, 0, 3, 2, 1, 0, 3, 2, 1, 0, 3, 2, 1,
   0, 3, 2, 1, 0, 3, 2, 1, 0, 3, 2, 1, 0, 3, 2, 1,
   0, 3, 2, 1, 0, 3, 2, 1, 0, 3, 2, 1, 0, 3, 2, 1]

/-- Register-role table `BB` (second macro argument per round). -/
def BB : List Nat :=
  [1, 0, 3, 2, 1, 0, 3, 2, 1, 0, 3, 2, 1, 0, 3, 2,
   1, 0, 3, 2, 1, 0, 3, 2, 1, 0, 3, 2, 1, 0, 3, 2,
   1, 0, 3, 2, 1, 0, 3, 2, 1, 0, 3, 2, 1, 0, 3, 2,
   1, 0, 3, 2, 1, 0, 3, 2, 1, 0, 3, 2, 1, 0, 3, 2]

/-- Register-role table `CC` (third macro argument per round). -/
def CC : List Nat :=
  [2, 1, 0, 3, 2, 1, 0, 3, 2, 1, 0, 3, 2, 1, 0, 3,
   2, 1, 0, 3, 2, 1, 0, 3, 2, 1, 0, 3, 2, 1, 0, 3,
   2, 1, 0, 3, 2, 1, 0, 3, 2, 1, 0, 3, 2, 1, 0, 3,
   2, 1, 0, 3, 2, 1, 0, 3, 2, 1, 0, 3, 2, 1, 0, 3]

/-- Register-role table `DD` (fourth macro argument per round). -/
def DD : List Nat :=
  [3, 2, 1, 0, 3, 2, 1, 0, 3, 2, 1, 0, 3, 2, 1, 0,
   3, 2, 1, 0, 3, 2, 1, 0, 3, 2, 1, 0, 3, 2, 1, 0,
   3, 2, 1, 0, 3, 2, 1, 0, 3, 2, 1, 0, 3, 2, 1, 0,
   3, 2, 1, 0, 3, 2, 1, 0, 3, 2, 1, 0, 3, 2, 1, 0]

/-- Message-word index table `MM`. -/
def MM : List Nat :=
  [0, 1,  2,  3,  4,  5,  6,  7,  8,  9, 10, 11, 12, 13, 14, 15,
   1, 6, 11,  0,  5, 10, 15,  4,  9, 14,  3,  8, 13,  2,  7, 12,
   5, 8, 11, 14,  1,  4,  7, 10, 13,  0,  3,  6,  9, 12, 15,  2,
   0, 7, 14,  5, 12,  3, 10,  1,  8, 15,  6, 13,  4, 11,  2,  9]

/-- Per-round shift table `S`. -/
def S : List Nat :=
  [7, 12, 17, 22, 7, 12, 17, 22, 7, 12, 17, 22, 7, 12, 17, 22,
   5,  9, 14, 20, 5,  9, 14, 20, 5,  9, 14, 20, 5,  9, 14, 20,
   4, 11, 16, 23, 4, 11, 16, 23, 4, 11, 16, 23, 4, 11, 16, 23,
   6, 10, 15, 21, 6, 10, 15, 21, 6, 10, 15, 21, 6, 10, 15, 21]

/-- Per-round additive constant table `T`. -/
def T : List Nat :=
  [0xd76aa478, 0xe8c7b756, 0x242070db, 0xc1bdceee,
   0xf57c0faf, 0x4787c62a, 0xa8304613, 0xfd469501,
   0x698098d8, 0x8b44f7af, 0xffff5bb1, 0x895cd7be,
   0x6b901122, 0xfd987193, 0xa679438e, 0x49b40821,
   0xf61e2562, 0xc040b340, 0x265e5a51, 0xe9b6c7aa,
   0xd62f105d, 0x02441453, 0xd8a1e681, 0xe7d3fbc8,
   0x21e1cde6, 0xc33707d6, 0xf4d50d87, 0x455a14ed,
   0xa9e3e905, 0xfcefa3f8, 0x676f02d9, 0x8d2a4c8a,
   0xfffa3942, 0x8771f681, 0x6d9d6122, 0xfde5380c,
   0xa4beea44, 0x4bdecfa9, 0xf6bb4b60, 0xbebfbc70,
   0x289b7ec6, 0xeaa127fa, 0xd4ef3085, 0x04881d05,
   0xd9d4d039, 0xe6db99e5, 0x1fa27cf8, 0xc4ac5665,
   0xf4292244, 0x432aff97, 0xab9423a7, 0xfc93a039,
   0x655b59c3, 0x8f0ccc92, 0xffeff47d, 0x85845dd1,
   0x6fa87e4f, 0xfe2ce6e0, 0xa3014314, 0x4e0811a1,
   0xf7537e82, 0xbd3af235, 0x2ad7d2bb, 0xeb86d391]

/-- Auxiliary function `F(x,y,z) = (x & y) | (~x & z)`. -/
def F (x y z : Nat) : Nat := (x &&& y) ||| ((x ^^^ 0xFFFFFFFF) &&& z)

/-- Auxiliary function `G(x,y,z) = (x & z) | (y & ~z)`. -/
def G (x y z : Nat) : Nat := (x &&& z) ||| (y &&& (z ^^^ 0xFFFFFFFF))

/-- Auxiliary function `H(x,y,z) = x ^ y ^ z`. -/
def H (x y z : Nat) : Nat := x ^^^ y ^^^ z

/-- Auxiliary function `I(x,y,z) = y ^ (x | ~z)`. -/
def I (x y z : Nat) : Nat := y ^^^ (x ||| (z ^^^ 0xFFFFFFFF))

/-- One iteration of the round loop in `md5` of `part_000`.  The macro
call is `XX(H[AA[i]], H[BB[i]], H[CC[i]], H[DD[i]], M->threetwo[MM[i]],
S[i], T[i])`: it rewrites `H[AA[i]]` in place using the other three
state words, with `F`/`G`/`H`/`I` selected by `i < 16/32/48/64`. -/
def md5step (M : Nat → Nat) (Hs : List Nat) (i : Nat) : List Nat :=
  let a := Hs.getD (AA.getD i 0) 0
  let b := Hs.getD (BB.getD i 0) 0
  let c := Hs.getD (CC.getD i 0) 0
  let d := Hs.getD (DD.getD i 0) 0
  let f := if i < 16 then F b c d
    else if i < 32 then G b c d
    else if i < 48 then H b c d
    else I b c d
  let a1 := (a + f + M (MM.getD i 0) + T.getD i 0) % 2 ^ 32
  let a2 := (b + ROTL a1 (S.getD i 0)) % 2 ^ 32
  Hs.set (AA.getD i 0) a2

/-- The 64 rounds of `md5` in `part_000` (`for (int i = 0; i < 64; i++)`). -/
def md5rounds (M : Nat → Nat) (Hs : List Nat) : List Nat :=
  (List.range 64).foldl (md5step M) Hs

/-- `md5(BLOCK *M, WORD *H)` from `part_000`: save `a,b,c,d = H[0..3]`,
run the 64 in-place rounds on `H`, then `H[i] += saved value`. -/
def md5 (M : Nat → Nat) (Hs : List Nat) : List Nat :=
  let a := Hs.getD 0 0
  let b := Hs.getD 1 0
  let c := Hs.getD 2 0
  let d := Hs.getD 3 0
  let Hr := md5rounds M Hs
  [(Hr.getD 0 0 + a) % 2 ^ 32, (Hr.getD 1 0 + b) % 2 ^ 32,
   (Hr.getD 2 0 + c) % 2 ^ 32, (Hr.getD 3 0 + d) % 2 ^ 32]

/-- `nextblock(BLOCK *M, FILE *infile, uint64_t *nobits, PADFLAG *status)`
from `part_000`.  The `fread` and the `*nobits += nobytesread * 8` happen
before the `switch (*status)`.  Returns (loop-continue flag, emitted
block, number of `0x80` stores performed, successor state).  In the
`PAD0` branch the source zeroes bytes `0..56` and then overwrites bytes
`56..63` with `*nobits`, so the emitted block is 56 zero bytes followed
by the length field. -/
def nextblock (s : PadSt) : Bool × List Nat × Nat × PadSt :=
  let n := min 64 s.inp.length
  let r := s.inp.take 64
  let rest := s.inp.drop 64
  let nb := (s.nobits + 8 * n) % 2 ^ 64
  match s.flag with
  | PadFlag.FINISH => (false, [], 0, ⟨rest, nb, PadFlag.FINISH⟩)
  | PadFlag.PAD0 =>
    (true, List.replicate 56 0 ++ le64 nb, 0, ⟨rest, nb, PadFlag.FINISH⟩)
  | PadFlag.READ =>
    if n < 56 then
      (true, r ++ [0x80] ++ List.replicate (55 - n) 0 ++ le64 nb, 1,
        ⟨rest, nb, PadFlag.FINISH⟩)
    else if n < 64 then
      (true, r ++ [0x80] ++ List.replicate (63 - n) 0, 1,
        ⟨rest, nb, PadFlag.PAD0⟩)
    else
      (true, r, 0, ⟨rest, nb, PadFlag.READ⟩)

/-- The block-reading loop of `main` in `part_000`, with enough fuel for
any input (each `nextblock` call either consumes 64 bytes or moves the
`PADFLAG` strictly towards `FINISH`). -/
def run (s : PadSt) : List (List Nat) × Nat :=
  runF nextblock (s.inp.length + 3) s

/-- Initial chaining state `H[] = {A, B, C, D}` of `main` in `part_000`. -/
def H0 : List Nat := [0x67452301, 0xefcdab89, 0x98badcfe, 0x10325476]

/-- Whole-program hash of `part_000`'s `main`: fold `md5` over all
blocks produced by `nextblock`, starting from `H0`. -/
def mainHash (inp : List Nat) : List Nat :=
  (run ⟨inp, 0, PadFlag.READ⟩).1.foldl (fun Hs blk => md5 (wordsOf blk) Hs) H0

end Md5P
namespace Md5C
/-! Embedding of `src/Program/md5.c`. -/

open HashAlg

/-- Per-round shift table `S` of `md5.c` (same values as `part_000`). -/
def S : List Nat :=
  [7, 12, 17, 22, 7, 12, 17, 22, 7, 12, 17, 22, 7, 12, 17, 22,
   5,  9, 14, 20, 5,  9, 14, 20, 5,  9, 14, 20, 5,  9, 14, 20,
   4, 11, 16, 23, 4, 11, 16, 23, 4, 11, 16, 23, 4, 11, 16, 23,
   6, 10, 15, 21, 6, 10, 15, 21, 6, 10, 15, 21, 6, 10, 15, 21]

/-- Per-round additive constant table `T` of `md5.c`. -/
def T : List Nat :=
  [0xd76aa478, 0xe8c7b756, 0x242070db, 0xc1bdceee,
   0xf57c0faf, 0x4787c62a, 0xa8304613, 0xfd469501,
   0x698098d8, 0x8b44f7af, 0xffff5bb1, 0x895cd7be,
   0x6b901122, 0xfd987193, 0xa679438e, 0x49b40821,
   0xf61e2562, 0xc040b340, 0x265e5a51, 0xe9b6c7aa,
   0xd62f105d, 0x02441453, 0xd8a1e681, 0xe7d3fbc8,
   0x21e1cde6, 0xc33707d6, 0xf4d50d87, 0x455a14ed,
   0xa9e3e905, 0xfcefa3f8, 0x676f02d9, 0x8d2a4c8a,
   0xfffa3942, 0x8771f681, 0x6d9d6122, 0xfde5380c,
   0xa4beea44, 0x4bdecfa9, 0xf6bb4b60, 0xbebfbc70,
   0x289b7ec6, 0xeaa127fa, 0xd4ef3085, 0x04881d05,
   0xd9d4d039, 0xe6db99e5, 0x1fa27cf8, 0xc4ac5665,
   0xf4292244, 0x432aff97, 0xab9423a7, 0xfc93a039,
   0x655b59c3, 0x8f0ccc92, 0xffeff47d, 0x85845dd1,
   0x6fa87e4f, 0xfe2ce6e0, 0xa3014314, 0x4e0811a1,
   0xf7537e82, 0xbd3af235, 0x2ad7d2bb, 0xeb86d391]

/-- First macro argument of unrolled round `i` of `md5.c`: the calls
cycle `(a,...), (d,...), (c,...), (b,...)` in every group of four. -/
def Aidx (i : Nat) : Nat := [0, 3, 2, 1].getD (i % 4) 0

/-- Second macro argument of unrolled round `i` of `md5.c`. -/
def Bidx (i : Nat) : Nat := [1, 0, 3, 2].getD (i % 4) 0

/-- Third macro argument of unrolled round `i` of `md5.c`. -/
def Cidx (i : Nat) : Nat := [2, 1, 0, 3].getD (i % 4) 0

/-- Fourth macro argument of unrolled round `i` of `md5.c`. -/
def Didx (i : Nat) : Nat := [3, 2, 1, 0].getD (i % 4) 0

/-- Fifth macro argument: `M->threetwo` index of unrolled round `i`,
transcribed from the 64 unrolled calls of `md5.c`. -/
def Midx : List Nat :=
  [0, 1,  2,  3,  4,  5,  6,  7,  8,  9, 10, 11, 12, 13, 14, 15,
   1, 6, 11,  0,  5, 10, 15,  4,  9, 14,  3,  8, 13,  2,  7, 12,
   5, 8, 11, 14,  1,  4,  7, 10, 13,  0,  3,  6,  9, 12, 15,  2,
   0, 7, 14,  5, 12,  3, 10,  1,  8, 15,  6, 13,  4, 11,  2,  9]

/-- Sixth macro argument: the index into `S` used by unrolled round `i`
of `md5.c`.  Rounds 1..48 pass `S[0]..S[47]`; every one of the sixteen
round-4 calls (`/* 49 */` .. `/* 64 */`) passes `S[47]`. -/
def Sidx (i : Nat) : Nat := if i < 48 then i else 47

/-- One unrolled round of `md5` in `md5.c`, acting on the local
registers `[a, b, c, d]` (list indices 0..3). -/
def md5step (M : Nat → Nat) (regs : List Nat) (i : Nat) : List Nat :=
  let a := regs.getD (Aidx i) 0
  let b := regs.getD (Bidx i) 0
  let c := regs.getD (Cidx i) 0
  let d := regs.getD (Didx i) 0
  let f := if i < 16 then Md5P.F b c d
    else if i < 32 then Md5P.G b c d
    else if i < 48 then Md5P.H b c d
    else Md5P.I b c d
  let a1 := (a + f + M (Midx.getD i 0) + T.getD i 0) % 2 ^ 32
  let a2 := (b + ROTL a1 (S.getD (Sidx i) 0)) % 2 ^ 32
  regs.set (Aidx i) a2

/-- The 64 unrolled rounds of `md5` in `md5.c`, from local registers
initialized to `state[0..3]`. -/
def md5rounds (M : Nat → Nat) (state : List Nat) : List Nat :=
  (List.range 64).foldl (md5step M)
    [state.getD 0 0, state.getD 1 0, state.getD 2 0, state.getD 3 0]

/-- `md5(UINT4 *state, BLOCK *M)` from `md5.c`: runs the 64 unrolled
rounds and then executes `output[i] += register` on the global
`uint32_t output[4]`; `state` itself is never written.  Returns the
(unchanged) state together with the updated global `output`. -/
def md5 (M : Nat → Nat) (state output : List Nat) : List Nat × List Nat :=
  let r := md5rounds M state
  (state,
   [(output.getD 0 0 + r.getD 0 0) % 2 ^ 32,
    (output.getD 1 0 + r.getD 1 0) % 2 ^ 32,
    (output.getD 2 0 + r.getD 2 0) % 2 ^ 32,
    (output.getD 3 0 + r.getD 3 0) % 2 ^ 32])

/-- `pad(BLOCK *M, FILE *infile, uint64_t *nobits, PADFLAG *status)`
from `md5.c`.  Unlike `part_000`'s `nextblock`, the `fread` happens only
in the `default` (`READ`) case. -/
def pad (s : PadSt) : Bool × List Nat × Nat × PadSt :=
  match s.flag with
  | PadFlag.FINISH => (false, [], 0, s)
  | PadFlag.PAD0 =>
    (true, List.replicate 56 0 ++ le64 s.nobits, 0,
      ⟨s.inp, s.nobits, PadFlag.FINISH⟩)
  | PadFlag.READ =>
    let n := min 64 s.inp.length
    let r := s.inp.take 64
    let rest := s.inp.drop 64
    let nb := (s.nobits + 8 * n) % 2 ^ 64
    if n < 56 then
      (true, r ++ [0x80] ++ List.replicate (55 - n) 0 ++ le64 nb, 1,
        ⟨rest, nb, PadFlag.FINISH⟩)
    else if n < 64 then
      (true, r ++ [0x80] ++ List.replicate (63 - n) 0, 1,
        ⟨rest, nb, PadFlag.PAD0⟩)
    else
      (true, r, 0, ⟨rest, nb, PadFlag.READ⟩)

/-- The block-reading loop of `main` in `md5.c`. -/
def run (s : PadSt) : List (List Nat) × Nat :=
  runF pad (s.inp.length + 3) s

/-- `MD5_Prepare(MD5_CONTEXT *context, char *da)` from `md5.c`: the
function body is empty. -/
def MD5_Prepare {α : Type} (context : α) : α := context

/-- The global `uint32_t output[4]` printed by `main` in `md5.c`.  The
loop body only calls `MD5_Prepare` (the `md5(&M)` call is commented
out), so the zero-initialized global is never written. -/
def mainOutput (inp : List Nat) : List Nat :=
  (run ⟨inp, 0, PadFlag.READ⟩).1.foldl
    (fun output _blk => MD5_Prepare output) [0, 0, 0, 0]

end Md5C

namespace ShaP
/-! Embedding of `src/Video_Code/Finalizing_Padding/Finalizing_padding.c`. -/

open HashAlg

/-- Round-constant table `K[64]`, transcribed row by row from the
source initializer (lines 18-35). -/
def K : List Nat :=
  [0x428a2f98, 0x71374491, 0xb5c0fbcf, 0xe9b5dba5,
   0x3956c25b, 0x59f111f1, 0x923f82a4, 0xab1c5ed5] ++
  [0xd807aa98, 0x12835b01, 0x243185be, 0x550c7dc3,
   0x72be5d74, 0x80deb1fe, 0x9bdc06a7, 0xc19bf174] ++
  [0xe49b69c1, 0xefbe4786, 0x0fc19dc6, 0x240ca1cc,
   0x2de92c6f, 0x4a7484aa, 0x5cb0a9dc, 0x76f988da] ++
  [0x983e5152, 0xa831c66d, 0xb00327c8, 0xbf597fc7,
   0xc6e00bf3, 0xd5a79147, 0x06ca6351, 0x14292967] ++
  [0x27b70a85, 0x2e1b2138, 0x4d2c6dfc, 0x53380d13,
   0x650a7354, 0x766a0abb, 0x81c2c92e, 0x92722c85] ++
  [0xa2bfe8a1, 0xa81a664b, 0xc24b8b70, 0xc76c51a3,
   0xd192e819, 0xd6990624, 0xf40e3585, 0x106aa070] ++
  [0x19a4c116, 0x1e376c08, 0x2748774c, 0x34b0bcb5,
   0x391c0cb3, 0x4ed8aa4a, 0x5b9cca4f, 0x682e6ff3] ++
  [0x748f82ee, 0x78a5636f, 0x84c87814, 0x8cc70208,
   0x90befffa, 0xa4506ceb, 0xbef9a3f7, 0xc67178f2]

/-- `Maj(x,y,z) = (x & y) ^ (x & z) ^ (y & z)`. -/
def Maj (x y z : Nat) : Nat := (x &&& y) ^^^ (x &&& z) ^^^ (y &&& z)

/-- `Ch(x,y,z) = (x & y) ^ (~x & z)`. -/
def Ch (x y z : Nat) : Nat := (x &&& y) ^^^ ((x ^^^ 0xFFFFFFFF) &&& z)

/-- `SHR(x,n) = x >> n`. -/
def SHR (x n : Nat) : Nat := x >>> n

/-- `ROTR(x,n) = (x >> n) | (x << (32 - n))` on `uint32_t`. -/
def ROTR (x n : Nat) : Nat := ((x >>> n) ||| (x <<< (32 - n))) % 2 ^ 32

/-- `Sig0(x) = ROTR(x,2) ^ ROTR(x,13) ^ ROTR(x,22)`. -/
def Sig0 (x : Nat) : Nat := ROTR x 2 ^^^ ROTR x 13 ^^^ ROTR x 22

/-- `Sig1(x) = ROTR(x,6) ^ ROTR(x,11) ^ ROTR(x,25)`. -/
def Sig1 (x : Nat) : Nat := ROTR x 6 ^^^ ROTR x 11 ^^^ ROTR x 25

/-- `sig_zero(x) = ROTR(x,7) ^ ROTR(x,18) ^ SHR(x,3)`. -/
def sig_zero (x : Nat) : Nat := ROTR x 7 ^^^ ROTR x 18 ^^^ SHR x 3

/-- `sig_one(x) = ROTR(x,17) ^ ROTR(x,19) ^ SHR(x,10)`. -/
def sig_one (x : Nat) : Nat := ROTR x 17 ^^^ ROTR x 19 ^^^ SHR x 10

/-- Size of the stack array `uint32_t W[64]` in `nexthash`. -/
def Wsize : Nat := 64

/-- Index list of the schedule-extension loop in `nexthash`:
`for (t = 16; t < 16; t++)` visits the `t` with `16 ≤ t < 16`. -/
def schedExtIdx : List Nat := List.range' 16 (16 - 16)

/-- Indices of `W` written before the round loop of `nexthash`: the copy
loop `for (t = 0; t < 16; t++)` writes `W[0..15]`, the extension loop
writes `W[t]` for each `t` in `schedExtIdx`. -/
def WInitIdx : List Nat := List.range 16 ++ schedExtIdx

/-- The `W` array of `nexthash` after both schedule loops.  `wjunk`
models the uninitialized stack contents of entries the loops never
write. -/
def W (M wjunk : Nat → Nat) : Nat → Nat :=
  schedExtIdx.foldl
    (fun Wf t => fun u =>
      if u = t then
        (sig_one (Wf (t - 2)) + Wf (t - 7) + sig_zero (Wf (t - 15)) +
          Wf (t - 16)) % 2 ^ 32
      else Wf u)
    (fun u => if u < 16 then M u else wjunk u)

/-- The eight working registers `a..h` of `nexthash`. -/
structure Regs where
  a : Nat
  b : Nat
  c : Nat
  d : Nat
  e : Nat
  f : Nat
  g : Nat
  h : Nat
deriving DecidableEq, Repr

/-- Index list of the round loop in `nexthash`: `for (t = 0; t < 65; t++)`. -/
def roundIdx : List Nat := List.range 65

/-- One iteration of the round loop in `nexthash`: computes `T1`, `T2`,
rotates the registers, and then (inside the loop body) executes
`H[0] += a; ...; H[6] += g; H[7] += f;` with the just-updated
registers — note the last store adds `f`, not `h`. -/
def iter (Kf Wf : Nat → Nat) (p : Regs × List Nat) (t : Nat) :
    Regs × List Nat :=
  let r := p.1
  let Hs := p.2
  let T1 := (r.h + Sig1 r.e + Ch r.e r.f r.g + Kf t + Wf t) % 2 ^ 32
  let T2 := (Sig0 r.a + Maj r.a r.b r.c) % 2 ^ 32
  let r2 : Regs :=
    { a := (T1 + T2) % 2 ^ 32, b := r.a, c := r.b, d := r.c,
      e := (r.d + T1) % 2 ^ 32, f := r.e, g := r.f, h := r.g }
  (r2,
   [(Hs.getD 0 0 + r2.a) % 2 ^ 32, (Hs.getD 1 0 + r2.b) % 2 ^ 32,
    (Hs.getD 2 0 + r2.c) % 2 ^ 32, (Hs.getD 3 0 + r2.d) % 2 ^ 32,
    (Hs.getD 4 0 + r2.e) % 2 ^ 32, (Hs.getD 5 0 + r2.f) % 2 ^ 32,
    (Hs.getD 6 0 + r2.g) % 2 ^ 32, (Hs.getD 7 0 + r2.f) % 2 ^ 32])

/-- `nexthash(union block *M, uint32_t *H)`: build `W`, load the
registers from `H`, run the round loop over `roundIdx`, return the final
`H`.  `wjunk` models the uninitialized entries of `W`; `kjunk` models
the out-of-bounds read `K[64]` that the loop bound `t < 65` performs. -/
def nexthash (wjunk : Nat → Nat) (kjunk : Nat) (M : Nat → Nat)
    (Hs : List Nat) : List Nat :=
  let Kf : Nat → Nat := fun t => if t < 64 then K.getD t 0 else kjunk
  let Wf := W M wjunk
  let r0 : Regs :=
    { a := Hs.getD 0 0, b := Hs.getD 1 0, c := Hs.getD 2 0,
      d := Hs.getD 3 0, e := Hs.getD 4 0, f := Hs.getD 5 0,
      g := Hs.getD 6 0, h := Hs.getD 7 0 }
  (roundIdx.foldl (iter Kf Wf) (r0, Hs)).2

/-- The `PADFLAG` enum of `Finalizing_padding.c`:
`READ`, `PAD0`, `PAD1`, `FINISH`. -/
inductive SFlag where
  | READ : SFlag
  | PAD0 : SFlag
  | PAD1 : SFlag
  | FINISH : SFlag
deriving DecidableEq, Repr

/-- Padder state of `Finalizing_padding.c`. -/
structure SSt where
  inp : List Nat
  nobits : Nat
  flag : SFlag
deriving DecidableEq, Repr

/-- `nextblock(union block *M, FILE *infile, uint64_t *nobits,
PADFLAG *status)` from `Finalizing_padding.c`.  The status checks come
first; only the fall-through (`READ`) path calls `fread`.  No statement
in this file ever adds to `*nobits`. -/
def nextblock (s : SSt) : Bool × List Nat × Nat × SSt :=
  match s.flag with
  | SFlag.FINISH => (false, [], 0, s)
  | SFlag.PAD1 =>
    (true, [0x80] ++ List.replicate 55 0 ++ le64 s.nobits, 1,
      ⟨s.inp, s.nobits, SFlag.FINISH⟩)
  | SFlag.PAD0 =>
    (true, List.replicate 56 0 ++ le64 s.nobits, 0,
      ⟨s.inp, s.nobits, SFlag.FINISH⟩)
  | SFlag.READ =>
    let n := min 64 s.inp.length
    let r := s.inp.take 64
    let rest := s.inp.drop 64
    if n = 64 then
      (true, r, 0, ⟨rest, s.nobits, SFlag.READ⟩)
    else if n < 56 then
      (true, r ++ [0x80] ++ List.replicate (55 - n) 0 ++ le64 s.nobits, 1,
        ⟨rest, s.nobits, SFlag.FINISH⟩)
    else
      (true, r ++ [0x80] ++ List.replicate (63 - n) 0, 1,
        ⟨rest, s.nobits, SFlag.PAD0⟩)

/-- The block-reading loop of `main` in `Finalizing_padding.c`. -/
def run (s : SSt) : List (List Nat) × Nat :=
  runF nextblock (s.inp.length + 3) s

/-- Initial chaining state `H[]` of `main` (section 5.3.3 constants). -/
def H0 : List Nat :=
  [0x6a09e667, 0xbb67ae85, 0x3c6ef372, 0xa54ff53a,
   0x510e527f, 0x9b05688c, 0x1f83d9ab, 0x5be0cd19]

/-- Whole-program hash of `Finalizing_padding.c`'s `main`: fold
`nexthash` over all blocks produced by `nextblock`, starting from `H0`.
`wjunk`/`kjunk` model the uninitialized and out-of-bounds reads. -/
def mainHash (wjunk : Nat → Nat) (kjunk : Nat) (inp : List Nat) :
    List Nat :=
  (run ⟨inp, 0, SFlag.READ⟩).1.foldl
    (fun Hs blk => nexthash wjunk kjunk (wordsOf blk) Hs) H0

end ShaP

namespace HashAlg

/-- getD of a zero replicate is zero at every index. -/
theorem getD_replicate_zero : ∀ (m k : Nat),
    (List.replicate m (0 : Nat)).getD k 0 = 0
  | 0, _ => by simp [List.getD]
  | m + 1, 0 => by simp [List.replicate]
  | m + 1, k + 1 => by
    simp only [List.replicate, List.getD_cons_succ]
    exact getD_replicate_zero m k

/-- Dropping the length of a prefix of an append leaves the suffix. -/
theorem drop_pref {α : Type} (l1 l2 : List α) (n : Nat) (h : l1.length = n) :
    (l1 ++ l2).drop n = l2 := by
  subst h
  induction l1 with
  | nil => simp
  | cons a l ih => simp [ih]

/-- Little-endian decode is a right inverse of `le64` up to `2 ^ 64`. -/
theorem decodeLE_le64 (x : Nat) : decodeLE (le64 x) = x % 2 ^ 64 := by
  have h8 : List.range 8 = [0, 1, 2, 3, 4, 5, 6, 7] := by decide
  simp only [le64, h8, List.map, decodeLE, List.foldr,
    Nat.shiftRight_eq_div_pow]
  norm_num
  omega

/-- The default value of `getLastD` is irrelevant on nonempty lists. -/
theorem getLastD_irrel {α : Type} (l : List α) (h : l ≠ []) (d1 d2 : α) :
    l.getLastD d1 = l.getLastD d2 := by
  cases l with
  | nil => exact absurd rfl h
  | cons a t =>
    rw [List.getLastD_eq_getLast?, List.getLastD_eq_getLast?,
      List.getLast?_eq_getLast (a :: t) (by simp)]
    rfl

end HashAlg

namespace Md5P

open HashAlg

/-- Once the flag is `FINISH`, the driver of `part_000` emits nothing. -/
theorem runF_finish (f : Nat) (inp : List Nat) (nb : Nat) :
    runF nextblock f ⟨inp, nb, PadFlag.FINISH⟩ = ([], 0) := by
  cases f <;> simp [runF, nextblock]

end Md5P

namespace Md5P

open HashAlg

/-- Evaluation of `part_000`'s `nextblock` in the `READ` state when the
whole remaining input (fewer than 56 bytes) is read. -/
theorem nextblock_read_small (inp : List Nat) (nb : Nat)
    (h : inp.length < 56) :
    nextblock ⟨inp, nb, PadFlag.READ⟩ =
      (true,
        inp ++ [0x80] ++ List.replicate (55 - inp.length) 0 ++
          le64 ((nb + 8 * inp.length) % 2 ^ 64), 1,
        ⟨[], (nb + 8 * inp.length) % 2 ^ 64, PadFlag.FINISH⟩) := by
  have hmin : min 64 inp.length = inp.length := by omega
  have htake : inp.take 64 = inp := List.take_of_length_le (by omega)
  have hdrop : inp.drop 64 = [] := List.drop_eq_nil_of_le (by omega)
  simp only [nextblock, hmin, htake, hdrop, if_pos h]

/-- Evaluation of `part_000`'s `nextblock` in the `READ` state when
56..63 bytes are read. -/
theorem nextblock_read_mid (inp : List Nat) (nb : Nat)
    (h1 : 56 ≤ inp.length) (h2 : inp.length < 64) :
    nextblock ⟨inp, nb, PadFlag.READ⟩ =
      (true, inp ++ [0x80] ++ List.replicate (63 - inp.length) 0, 1,
        ⟨[], (nb + 8 * inp.length) % 2 ^ 64, PadFlag.PAD0⟩) := by
  have hmin : min 64 inp.length = inp.length := by omega
  have htake : inp.take 64 = inp := List.take_of_length_le (by omega)
  have hdrop : inp.drop 64 = [] := List.drop_eq_nil_of_le (by omega)
  simp only [nextblock, hmin, htake, hdrop,
    if_neg (by omega : ¬ inp.length < 56), if_pos h2]

/-- Evaluation of `part_000`'s `nextblock` in the `READ` state when a
full 64-byte block is read. -/
theorem nextblock_read_full (inp : List Nat) (nb : Nat)
    (h : 64 ≤ inp.length) :
    nextblock ⟨inp, nb, PadFlag.READ⟩ =
      (true, inp.take 64, 0,
        ⟨inp.drop 64, (nb + 512) % 2 ^ 64, PadFlag.READ⟩) := by
  have hmin : min 64 inp.length = 64 := by omega
  simp only [nextblock, hmin]
  norm_num

/-- Evaluation of `part_000`'s `nextblock` in the `PAD0` state at end of
input. -/
theorem nextblock_pad0_nil (nb : Nat) :
    nextblock ⟨[], nb, PadFlag.PAD0⟩ =
      (true, List.replicate 56 0 ++ le64 (nb % 2 ^ 64), 0,
        ⟨[], nb % 2 ^ 64, PadFlag.FINISH⟩) := by
  simp [nextblock]

/-- Full-run invariant of `part_000`'s padder, for any fuel at least
`inp.length + 3`: the driver starting in `READ` emits a nonempty block
sequence, stores exactly one `0x80` marker in total, and the trailing
eight bytes of the last emitted block are the little-endian encoding of
`(nb + 8 * inp.length) % 2 ^ 64`. -/
theorem run_spec (fuel : Nat) : ∀ (inp : List Nat) (nb : Nat),
    inp.length + 3 ≤ fuel →
    (runF nextblock fuel ⟨inp, nb, PadFlag.READ⟩).2 = 1 ∧
    (runF nextblock fuel ⟨inp, nb, PadFlag.READ⟩).1 ≠ [] ∧
    ((runF nextblock fuel ⟨inp, nb, PadFlag.READ⟩).1.getLastD []).drop 56 =
      le64 ((nb + 8 * inp.length) % 2 ^ 64) := by
  induction fuel using Nat.strong_induction_on with
  | _ fuel ih =>
  intro inp nb hfuel
  obtain ⟨f, rfl⟩ : ∃ f, fuel = f + 1 := ⟨fuel - 1, by omega⟩
  by_cases h56 : inp.length < 56
  · rw [show (f + 1) = Nat.succ f from rfl]
    simp only [runF, nextblock_read_small inp nb h56, runF_finish]
    refine ⟨by simp, by simp, ?_⟩
    rw [List.getLastD_cons, List.getLastD_nil]
    refine drop_pref _ _ 56 ?_
    simp
    omega
  · by_cases h64 : inp.length < 64
    · obtain ⟨f2, rfl⟩ : ∃ f2, f = f2 + 1 := ⟨f - 1, by omega⟩
      rw [show (f2 + 1 + 1) = Nat.succ (Nat.succ f2) from rfl]
      simp only [runF, nextblock_read_mid inp nb (by omega) h64,
        nextblock_pad0_nil, runF_finish]
      refine ⟨by simp, by simp, ?_⟩
      rw [List.getLastD_cons, List.getLastD_cons, List.getLastD_nil]
      rw [drop_pref _ _ 56 (by simp)]
      congr 1
      have h2 : (2 : Nat) ^ 64 = 18446744073709551616 := by norm_num
      rw [h2]
      omega
    · rw [show (f + 1) = Nat.succ f from rfl]
      simp only [runF, nextblock_read_full inp nb (by omega)]
      have hIH := ih f (by omega) (inp.drop 64) ((nb + 512) % 2 ^ 64)
        (by simp [List.length_drop]; omega)
      refine ⟨by simpa using hIH.1, by simp, ?_⟩
      rw [List.getLastD_cons, getLastD_irrel _ hIH.2.1 _ [],
        hIH.2.2]
      congr 1
      rw [Nat.mod_add_mod]
      have h2 : (2 : Nat) ^ 64 = 18446744073709551616 := by norm_num
      rw [h2]
      have : inp.length ≥ 64 := by omega
      simp only [List.length_drop]
      omega

end Md5P

namespace ShaP

open HashAlg

/-- Once the flag is `FINISH`, the driver of `Finalizing_padding.c`
emits nothing. -/
theorem sha_runF_finish (f : Nat) (inp : List Nat) (nb : Nat) :
    runF nextblock f ⟨inp, nb, SFlag.FINISH⟩ = ([], 0) := by
  cases f <;> simp [runF, nextblock]

/-- Evaluation of the SHA padder's `nextblock` in the `READ` state when
the whole remaining input (fewer than 56 bytes) is read.  Note the
length field is `*nobits` unchanged: this file never updates it. -/
theorem sha_read_small (inp : List Nat) (nb : Nat)
    (h : inp.length < 56) :
    nextblock ⟨inp, nb, SFlag.READ⟩ =
      (true, inp ++ [0x80] ++ List.replicate (55 - inp.length) 0 ++
        le64 nb, 1, ⟨[], nb, SFlag.FINISH⟩) := by
  have hmin : min 64 inp.length = inp.length := by omega
  have htake : inp.take 64 = inp := List.take_of_length_le (by omega)
  have hdrop : inp.drop 64 = [] := List.drop_eq_nil_of_le (by omega)
  simp only [nextblock, hmin, htake, hdrop,
    if_neg (by omega : ¬ inp.length = 64), if_pos h]

/-- Evaluation of the SHA padder's `nextblock` in the `READ` state when
56..63 bytes are read. -/
theorem sha_read_mid (inp : List Nat) (nb : Nat)
    (h1 : 56 ≤ inp.length) (h2 : inp.length < 64) :
    nextblock ⟨inp, nb, SFlag.READ⟩ =
      (true, inp ++ [0x80] ++ List.replicate (63 - inp.length) 0, 1,
        ⟨[], nb, SFlag.PAD0⟩) := by
  have hmin : min 64 inp.length = inp.length := by omega
  have htake : inp.take 64 = inp := List.take_of_length_le (by omega)
  have hdrop : inp.drop 64 = [] := List.drop_eq_nil_of_le (by omega)
  simp only [nextblock, hmin, htake, hdrop,
    if_neg (by omega : ¬ inp.length = 64),
    if_neg (by omega : ¬ inp.length < 56)]

/-- Evaluation of the SHA padder's `nextblock` in the `READ` state when
a full 64-byte block is read. -/
theorem sha_read_full (inp : List Nat) (nb : Nat)
    (h : 64 ≤ inp.length) :
    nextblock ⟨inp, nb, SFlag.READ⟩ =
      (true, inp.take 64, 0, ⟨inp.drop 64, nb, SFlag.READ⟩) := by
  have hmin : min 64 inp.length = 64 := by omega
  simp [nextblock, hmin]

/-- Evaluation of the SHA padder's `nextblock` in the `PAD0` state:
no read happens, the all-zero block carries the (never-updated) length
field. -/
theorem sha_pad0 (inp : List Nat) (nb : Nat) :
    nextblock ⟨inp, nb, SFlag.PAD0⟩ =
      (true, List.replicate 56 0 ++ le64 nb, 0,
        ⟨inp, nb, SFlag.FINISH⟩) := rfl

/-- Full-run invariant of the SHA padder: starting in `READ`, the
driver stores exactly one `0x80` marker in total (state `PAD1`, which
would store a second one, is never entered). -/
theorem sha_run_spec (fuel : Nat) : ∀ (inp : List Nat) (nb : Nat),
    inp.length + 3 ≤ fuel →
    (runF nextblock fuel ⟨inp, nb, SFlag.READ⟩).2 = 1 := by
  induction fuel using Nat.strong_induction_on with
  | _ fuel ih =>
  intro inp nb hfuel
  obtain ⟨f, rfl⟩ : ∃ f, fuel = f + 1 := ⟨fuel - 1, by omega⟩
  by_cases h56 : inp.length < 56
  · rw [show (f + 1) = Nat.succ f from rfl]
    simp only [runF, sha_read_small inp nb h56, sha_runF_finish]
  · by_cases h64 : inp.length < 64
    · obtain ⟨f2, rfl⟩ : ∃ f2, f = f2 + 1 := ⟨f - 1, by omega⟩
      rw [show (f2 + 1 + 1) = Nat.succ (Nat.succ f2) from rfl]
      simp only [runF, sha_read_mid inp nb (by omega) h64,
        sha_pad0, sha_runF_finish]
    · rw [show (f + 1) = Nat.succ f from rfl]
      simp only [runF, sha_read_full inp nb (by omega)]
      have hIH := ih f (by omega) (inp.drop 64) nb
        (by simp [List.length_drop]; omega)
      simpa using hIH

end ShaP

namespace Md5C

open HashAlg

/-- Evaluation of `md5.c`'s `pad` in the `READ` state when the whole
remaining input (fewer than 56 bytes) is read: identical to
`part_000`'s `nextblock` in this case. -/
theorem pad_read_small (inp : List Nat) (nb : Nat)
    (h : inp.length < 56) :
    pad ⟨inp, nb, PadFlag.READ⟩ =
      (true,
        inp ++ [0x80] ++ List.replicate (55 - inp.length) 0 ++
          le64 ((nb + 8 * inp.length) % 2 ^ 64), 1,
        ⟨[], (nb + 8 * inp.length) % 2 ^ 64, PadFlag.FINISH⟩) := by
  have hmin : min 64 inp.length = inp.length := by omega
  have htake : inp.take 64 = inp := List.take_of_length_le (by omega)
  have hdrop : inp.drop 64 = [] := List.drop_eq_nil_of_le (by omega)
  simp only [pad, hmin, htake, hdrop, if_pos h]

end Md5C

open HashAlg

/-- C1: for the empty input, `part_000`'s engine state ends at the MD5
reference digest words (little-endian word values of
`d41d8cd98f00b204e9800998ecf8427e`), but the SHA-2-style program's
state (here instantiated with all-zero junk for its uninitialized
reads) is not the SHA-256 reference `e3b0c442…`, and the `md5.c`
program prints the untouched all-zero global `output`, which is not the
MD5 reference either. -/
theorem claim_C1_empty_digest :
    Md5P.mainHash [] = [0xd98c1dd4, 0x04b2008f, 0x980980e9, 0x7e42f8ec] ∧
    ShaP.mainHash (fun _ => 0) 0 [] ≠
      [0xe3b0c442, 0x98fc1c14, 0x9afbf4c8, 0x996fb924,
       0x27ae41e4, 0x649b934c, 0xa495991b, 0x7852b855] ∧
    Md5C.mainOutput [] = [0, 0, 0, 0] ∧
    ([0, 0, 0, 0] : List Nat) ≠
      [0xd98c1dd4, 0x04b2008f, 0x980980e9, 0x7e42f8ec] := by
  refine ⟨by decide, by decide, by decide, by decide⟩

/-- C2: the message-schedule extension loop of `nexthash` has bounds
`t = 16; t < 16`, so it visits no index at all; consequently `W[16]`
keeps whatever junk was on the stack (here 1) instead of the value
`σ1(W[14]) + W[9] + σ0(W[1]) + W[16-16]` (which is 0 for the all-zero
block), refuting the claimed recurrence. -/
theorem claim_C2_schedule :
    ShaP.schedExtIdx = [] ∧
    ShaP.W (fun _ => 0) (fun _ => 1) 16 = 1 ∧
    (ShaP.sig_one (ShaP.W (fun _ => 0) (fun _ => 1) 14) +
      ShaP.W (fun _ => 0) (fun _ => 1) 9 +
      ShaP.sig_zero (ShaP.W (fun _ => 0) (fun _ => 1) 1) +
      ShaP.W (fun _ => 0) (fun _ => 1) 0) % 2 ^ 32 = 0 ∧
    (1 : Nat) ≠ 0 := by
  refine ⟨rfl, rfl, by decide, by decide⟩

/-- C3: the round loop of `nexthash` runs 65 iterations, not 64; the
chaining state `H` is rewritten already by the first iteration (so it
is updated during the rounds, not only after the last one); and slot
`H[7]` receives the register `f`, not `h` — at the concrete initial
state and all-zero schedule these produce different values. -/
theorem claim_C3_rounds :
    ShaP.roundIdx.length = 65 ∧ (65 : Nat) ≠ 64 ∧
    (ShaP.iter (fun t => ShaP.K.getD t 0) (fun _ => 0)
        (⟨ShaP.H0.getD 0 0, ShaP.H0.getD 1 0, ShaP.H0.getD 2 0,
          ShaP.H0.getD 3 0, ShaP.H0.getD 4 0, ShaP.H0.getD 5 0,
          ShaP.H0.getD 6 0, ShaP.H0.getD 7 0⟩, ShaP.H0) 0).2 ≠
      ShaP.H0 ∧
    (ShaP.iter (fun t => ShaP.K.getD t 0) (fun _ => 0)
        (⟨ShaP.H0.getD 0 0, ShaP.H0.getD 1 0, ShaP.H0.getD 2 0,
          ShaP.H0.getD 3 0, ShaP.H0.getD 4 0, ShaP.H0.getD 5 0,
          ShaP.H0.getD 6 0, ShaP.H0.getD 7 0⟩, ShaP.H0) 0).2.getD 7 0 =
      (ShaP.H0.getD 7 0 +
        (ShaP.iter (fun t => ShaP.K.getD t 0) (fun _ => 0)
          (⟨ShaP.H0.getD 0 0, ShaP.H0.getD 1 0, ShaP.H0.getD 2 0,
            ShaP.H0.getD 3 0, ShaP.H0.getD 4 0, ShaP.H0.getD 5 0,
            ShaP.H0.getD 6 0, ShaP.H0.getD 7 0⟩, ShaP.H0) 0).1.f) %
        2 ^ 32 ∧
    (ShaP.iter (fun t => ShaP.K.getD t 0) (fun _ => 0)
        (⟨ShaP.H0.getD 0 0, ShaP.H0.getD 1 0, ShaP.H0.getD 2 0,
          ShaP.H0.getD 3 0, ShaP.H0.getD 4 0, ShaP.H0.getD 5 0,
          ShaP.H0.getD 6 0, ShaP.H0.getD 7 0⟩, ShaP.H0) 0).2.getD 7 0 ≠
      (ShaP.H0.getD 7 0 +
        (ShaP.iter (fun t => ShaP.K.getD t 0) (fun _ => 0)
          (⟨ShaP.H0.getD 0 0, ShaP.H0.getD 1 0, ShaP.H0.getD 2 0,
            ShaP.H0.getD 3 0, ShaP.H0.getD 4 0, ShaP.H0.getD 5 0,
            ShaP.H0.getD 6 0, ShaP.H0.getD 7 0⟩, ShaP.H0) 0).1.h) %
        2 ^ 32 := by
  refine ⟨by decide, by decide, by decide, by decide, by decide⟩

/-- C4: in `md5.c`, every one of the sixteen unrolled round-4 calls
passes `S[47] = 23` (the last row-3 entry) as its shift, instead of the
sixteen distinct table entries `S[48..63]` (the 6,10,15,21 pattern that
the same table — and `part_000`'s loop, which indexes `S` by the round
counter — provides). -/
theorem claim_C4_round4_shifts :
    Md5C.Sidx 48 = 47 ∧
    (List.range 16).map (fun j => Md5C.Sidx (48 + j)) =
      List.replicate 16 47 ∧
    (List.range 16).map (fun j => Md5C.S.getD (Md5C.Sidx (48 + j)) 0) =
      List.replicate 16 23 ∧
    (List.range 16).map (fun j => Md5C.S.getD (48 + j) 0) =
      [6, 10, 15, 21, 6, 10, 15, 21, 6, 10, 15, 21, 6, 10, 15, 21] ∧
    (List.range 16).map (fun j => Md5P.S.getD (48 + j) 0) =
      [6, 10, 15, 21, 6, 10, 15, 21, 6, 10, 15, 21, 6, 10, 15, 21] ∧
    List.replicate 16 23 ≠
      ([6, 10, 15, 21, 6, 10, 15, 21, 6, 10, 15, 21, 6, 10, 15, 21] :
        List Nat) := by
  refine ⟨rfl, by decide, by decide, by decide, by decide, by decide⟩

/-- C5: `part_000`'s `md5` does store
`(pre-round state i + post-round register i) mod 2^32` back into the
chaining state, but `md5.c`'s `md5` leaves its `state` argument
untouched and instead accumulates the post-round registers into the
global `output`; at the standard initial state and the all-zero block,
the chaining state the claim prescribes differs from the unchanged one
the code returns. -/
theorem claim_C5_feedforward :
    (∀ (M : Nat → Nat) (Hs : List Nat),
      Md5P.md5 M Hs =
        [((Md5P.md5rounds M Hs).getD 0 0 + Hs.getD 0 0) % 2 ^ 32,
         ((Md5P.md5rounds M Hs).getD 1 0 + Hs.getD 1 0) % 2 ^ 32,
         ((Md5P.md5rounds M Hs).getD 2 0 + Hs.getD 2 0) % 2 ^ 32,
         ((Md5P.md5rounds M Hs).getD 3 0 + Hs.getD 3 0) % 2 ^ 32]) ∧
    (Md5C.md5 (fun _ => 0) Md5P.H0 [0, 0, 0, 0]).1 = Md5P.H0 ∧
    ((Md5P.H0.getD 0 0 +
        (Md5C.md5rounds (fun _ => 0) Md5P.H0).getD 0 0) % 2 ^ 32 ≠
      Md5P.H0.getD 0 0) := by
  refine ⟨fun M Hs => rfl, by decide, by decide⟩

/-- C6: `md5.c`'s compression consults and mutates the global
`output`: two successive calls with the identical `(state, block)` pair
leave different values in it, so the observable result is not a
function of `(state, block)` alone; and the SHA-2-style `nexthash`
depends on the junk contents of its uninitialized `W[16..]` entries:
two runs over identical `(state, block)` with different residual stack
contents give different chaining states. -/
theorem claim_C6_purity :
    (Md5C.md5 (fun _ => 0) Md5P.H0 [0, 0, 0, 0]).2 ≠
      (Md5C.md5 (fun _ => 0) Md5P.H0
        ((Md5C.md5 (fun _ => 0) Md5P.H0 [0, 0, 0, 0]).2)).2 ∧
    ShaP.nexthash (fun _ => 0) 0 (fun _ => 0) ShaP.H0 ≠
      ShaP.nexthash (fun _ => 1) 0 (fun _ => 0) ShaP.H0 := by
  refine ⟨by decide, by decide⟩

/-- C10: the round loop of `nexthash` drives `t` up to 64, which is
outside both the 64-entry constant table `K` and the 64-entry stack
array `W`; moreover round `t = 16` already reads `W[16]`, an index no
schedule loop ever initialized. -/
theorem claim_C10_bounds :
    (64 ∈ ShaP.roundIdx) ∧ ¬ (64 < ShaP.Wsize) ∧
    ShaP.K.length = 64 ∧ ¬ (64 < ShaP.K.length) ∧
    (16 ∈ ShaP.roundIdx) ∧ 16 ∉ ShaP.WInitIdx := by
  refine ⟨by decide, by decide, by decide, by decide, by decide, by decide⟩

/-- Helper: the length field written by `sixfour[7] = *nobits` is 8
bytes. -/
theorem le64_length (x : Nat) : (le64 x).length = 8 := by simp [le64]

/-- C7: whenever the `part_000` padder reads `n < 56` bytes in the
`READ` state, the emitted 64-byte block carries the input, then `0x80`
at offset `n`, zeros up to byte 55, the updated `nobits` in bytes
56..63, and the flag moves to `FINISH`; `md5.c`'s `pad` behaves
identically on this branch; and for the empty input each engine emits
exactly one (padding) block and terminates. -/
theorem claim_C7_pad_small (inp : List Nat) (nb : Nat)
    (h : inp.length < 56) :
    (Md5P.nextblock ⟨inp, nb, PadFlag.READ⟩).1 = true ∧
    (Md5P.nextblock ⟨inp, nb, PadFlag.READ⟩).2.1.length = 64 ∧
    (Md5P.nextblock ⟨inp, nb, PadFlag.READ⟩).2.1.getD inp.length 0 = 0x80 ∧
    (∀ i, inp.length < i → i < 56 →
      (Md5P.nextblock ⟨inp, nb, PadFlag.READ⟩).2.1.getD i 0 = 0) ∧
    (Md5P.nextblock ⟨inp, nb, PadFlag.READ⟩).2.1.drop 56 =
      le64 ((nb + 8 * inp.length) % 2 ^ 64) ∧
    (Md5P.nextblock ⟨inp, nb, PadFlag.READ⟩).2.2.2.flag = PadFlag.FINISH ∧
    Md5C.pad ⟨inp, nb, PadFlag.READ⟩ =
      Md5P.nextblock ⟨inp, nb, PadFlag.READ⟩ ∧
    (Md5P.run ⟨[], 0, PadFlag.READ⟩).1.length = 1 ∧
    (Md5C.run ⟨[], 0, PadFlag.READ⟩).1.length = 1 := by
  rw [Md5P.nextblock_read_small inp nb h, Md5C.pad_read_small inp nb h]
  refine ⟨rfl, ?_, ?_, ?_, ?_, rfl, rfl, by decide, by decide⟩
  · simp only [List.length_append, List.length_replicate,
      List.length_cons, List.length_nil, le64_length]
    omega
  · rw [List.getD_append _ _ _ _ (by simp only [List.length_append,
        List.length_replicate, List.length_cons, List.length_nil]; omega),
      List.getD_append _ _ _ _ (by simp only [List.length_append,
        List.length_cons, List.length_nil]; omega),
      List.getD_append_right _ _ _ _ (by simp)]
    simp
  · intro i h1 h2
    rw [List.getD_append _ _ _ _ (by simp only [List.length_append,
        List.length_replicate, List.length_cons, List.length_nil]; omega),
      List.getD_append_right _ _ _ _ (by simp only [List.length_append,
        List.length_cons, List.length_nil]; omega)]
    exact getD_replicate_zero _ _
  · exact drop_pref _ _ 56 (by simp only [List.length_append,
      List.length_replicate, List.length_cons, List.length_nil]; omega)

/-- C7 witness: instantiation at the empty input (`n = 0` on the first
call). -/
theorem claim_C7_pad_small_witness :
    ([] : List Nat).length < 56 ∧
    ((Md5P.nextblock ⟨[], 0, PadFlag.READ⟩).1 = true ∧
     (Md5P.nextblock ⟨[], 0, PadFlag.READ⟩).2.1.length = 64 ∧
     (Md5P.nextblock ⟨[], 0, PadFlag.READ⟩).2.1.getD
       ([] : List Nat).length 0 = 0x80 ∧
     (∀ i, ([] : List Nat).length < i → i < 56 →
       (Md5P.nextblock ⟨[], 0, PadFlag.READ⟩).2.1.getD i 0 = 0) ∧
     (Md5P.nextblock ⟨[], 0, PadFlag.READ⟩).2.1.drop 56 =
       le64 ((0 + 8 * ([] : List Nat).length) % 2 ^ 64) ∧
     (Md5P.nextblock ⟨[], 0, PadFlag.READ⟩).2.2.2.flag =
       PadFlag.FINISH ∧
     Md5C.pad ⟨[], 0, PadFlag.READ⟩ =
       Md5P.nextblock ⟨[], 0, PadFlag.READ⟩ ∧
     (Md5P.run ⟨[], 0, PadFlag.READ⟩).1.length = 1 ∧
     (Md5C.run ⟨[], 0, PadFlag.READ⟩).1.length = 1) :=
  ⟨by decide, claim_C7_pad_small [] 0 (by decide)⟩

/-- C8: for any input of `N` bytes (with `8N` below the `uint64_t`
wrap), the trailing 8 bytes of the last block emitted by `part_000`'s
padder decode, little-endian, to exactly `8 * N` — but the SHA-2-style
padder never updates `*nobits`, so on the 1-byte input `"a"` its final
block's length field is all zeros and decodes to 0 (under either
endianness), not `8`. -/
theorem claim_C8_bitcount (inp : List Nat)
    (h : 8 * inp.length < 2 ^ 64) :
    decodeLE (((Md5P.run ⟨inp, 0, PadFlag.READ⟩).1.getLastD []).drop 56) =
      8 * inp.length ∧
    ((ShaP.run ⟨[97], 0, ShaP.SFlag.READ⟩).1.getLastD []).drop 56 =
      List.replicate 8 0 ∧
    decodeBE (List.replicate 8 0) = 0 ∧
    decodeLE (List.replicate 8 0) = 0 ∧
    8 * ([97] : List Nat).length ≠ 0 := by
  refine ⟨?_, by decide, by decide, by decide, by decide⟩
  have hr := Md5P.run_spec (inp.length + 3) inp 0 (le_refl _)
  simp only [Md5P.run]
  rw [hr.2.2, decodeLE_le64, Nat.zero_add,
    Nat.mod_mod_of_dvd _ (dvd_refl _), Nat.mod_eq_of_lt h]

/-- C8 witness: instantiation at the 1-byte input `"a"`. -/
theorem claim_C8_bitcount_witness :
    8 * ([97] : List Nat).length < 2 ^ 64 ∧
    decodeLE (((Md5P.run ⟨[97], 0, PadFlag.READ⟩).1.getLastD []).drop 56) =
      8 * ([97] : List Nat).length :=
  ⟨by decide, (claim_C8_bitcount [97] (by decide)).1⟩

/-- C9: over a whole run from the initial `READ` state to termination,
each padder stores the `0x80` marker exactly once, for every input and
every starting bit count — in particular also when the input length is
a multiple of 64, where the marker lands in the extra all-padding
block; the SHA padder's `PAD1` state (which would store a second
marker) is never entered. -/
theorem claim_C9_single_marker (inp : List Nat) (nb : Nat) :
    (Md5P.run ⟨inp, nb, PadFlag.READ⟩).2 = 1 ∧
    (ShaP.run ⟨inp, nb, ShaP.SFlag.READ⟩).2 = 1 := by
  constructor
  · exact (Md5P.run_spec (inp.length + 3) inp nb (le_refl _)).1
  · exact ShaP.sha_run_spec (inp.length + 3) inp nb (le_refl _)
